import Mathlib

/-!
A shallow embedding of the agent framework: the iteration engine
(src/example/index.ts and src/patterns/01-the-loop.ts), the event-sourced
state derivation (src/example/state/event-store.ts), and the
coordinator/worker delegation (src/example/orchestration/coordinator.ts).

Modelling conventions:
* JavaScript values occurring as tool arguments are modelled by the small
  universe `JVal` (strings, numbers, string arrays): these are the only
  shapes this program ever stores in an argument record.
* Exceptions are modelled as an outcome sum `ExecOutcome`: `taskComplete r`
  is the distinguished `TaskComplete` control signal thrown by the done
  tool; `err m` is any other thrown `Error` with message `m`.
* `Date.now()` is modelled by a logical clock (`Log.now`) advanced by one
  at each event append; timestamps are assigned at append time, mirroring
  `EventStore.append`.
* String `substring(0, n)` is modelled by `String.take n` and JavaScript
  string `includes` by a character-list scan (`strContainsSub`).
-/

-- =============================================================================
-- Basic value universe and string helpers
-- =============================================================================

/-- Values appearing in JavaScript argument records of this program:
strings, non-negative numbers, and arrays of strings. -/
inductive JVal where
  | str (s : String)
  | num (n : Nat)
  | strs (xs : List String)
  deriving DecidableEq, Repr

/-- Argument record: ordered key/value pairs (a JS object literal). -/
def Args := List (String × JVal)
  deriving DecidableEq, Repr

/-- Character-list test: does `s` start with `pat`? -/
def charsStartWith : List Char → List Char → Bool
  | _, [] => true
  | [], _ :: _ => false
  | c :: cs, p :: ps => c == p && charsStartWith cs ps

/-- Character-list test: does `s` contain `pat` (JavaScript `includes`)? -/
def charsContain : List Char → List Char → Bool
  | [], pat => pat.isEmpty
  | c :: cs, pat => charsStartWith (c :: cs) pat || charsContain cs pat

/-- JavaScript `s.includes(pat)`. -/
def strContainsSub (s pat : String) : Bool :=
  charsContain s.data pat.data

-- =============================================================================
-- Event types and derived state (src/example/state/event-store.ts)
-- =============================================================================

/-- The closed union of agent events (event-store.ts `AgentEvent`).
Each carries its append-time timestamp. -/
inductive AgentEvent where
  | agent_started (timestamp : Nat) (task : String) (tools : List String)
  | tool_called (timestamp : Nat) (toolCallId : String) (tool : String)
      (arguments : Args)
  | tool_result (timestamp : Nat) (toolCallId : String) (tool : String)
      (result : String) (success : Bool) (durationMs : Nat)
  | state_changed (timestamp : Nat) (key : String) (oldValue newValue : JVal)
  | agent_completed (timestamp : Nat) (result : String) (success : Bool)
      (totalIterations : Nat) (totalDurationMs : Nat)
  | error_occurred (timestamp : Nat) (error : String) (recoverable : Bool)
  deriving DecidableEq, Repr

/-- Run status (event-store.ts `AgentState.status`). -/
inductive RunStatus where
  | running
  | completed
  | failed
  deriving DecidableEq, Repr

/-- Per-tool call counters (event-store.ts `AgentState.toolCalls`).
`byTool` is the JS object, modelled as an insertion-ordered
association list. -/
structure ToolCallStats where
  total : Nat
  successful : Nat
  failed : Nat
  byTool : List (String × Nat)
  deriving DecidableEq, Repr

/-- Derived run state (event-store.ts `AgentState`). The source field
`variables` is renamed `vars` here because `variables` is reserved in Lean. -/
structure AgentState where
  status : RunStatus
  task : String
  startTime : Nat
  endTime : Option Nat
  iterations : Nat
  toolCalls : ToolCallStats
  vars : List (String × JVal)
  errors : List String
  result : Option String
  deriving DecidableEq, Repr

/-- JS object update `byTool[t] = (byTool[t] || 0) + 1`: bump the counter
for `name`, appending a fresh key at the end if absent. -/
def bumpTool : List (String × Nat) → String → List (String × Nat)
  | [], name => [(name, 1)]
  | (k, v) :: rest, name =>
    if k == name then (k, v + 1) :: rest else (k, v) :: bumpTool rest name

/-- Read a counter out of the `byTool` object (0 when absent). -/
def countOf (l : List (String × Nat)) (name : String) : Nat :=
  match l.find? (fun p => p.1 == name) with
  | some p => p.2
  | none => 0

/-- JS object update `variables[key] = newValue`. -/
def setVar : List (String × JVal) → String → JVal → List (String × JVal)
  | [], key, v => [(key, v)]
  | (k, w) :: rest, key, v =>
    if k == key then (k, v) :: rest else (k, w) :: setVar rest key v

/-- The initial accumulator of `deriveState` (event-store.ts lines 106-119). -/
def initialState : AgentState :=
  { status := .running
    task := ""
    startTime := 0
    endTime := none
    iterations := 0
    toolCalls := { total := 0, successful := 0, failed := 0, byTool := [] }
    vars := []
    errors := []
    result := none }

/-- One case of the `switch` in `deriveState` (event-store.ts lines 121-160). -/
def applyEvent (s : AgentState) : AgentEvent → AgentState
  | .agent_started t task _tools =>
    { s with task := task, startTime := t }
  | .tool_called _ _ tool _ =>
    { s with toolCalls :=
        { s.toolCalls with
            total := s.toolCalls.total + 1
            byTool := bumpTool s.toolCalls.byTool tool } }
  | .tool_result _ _ _ _ success _ =>
    if success then
      { s with toolCalls :=
          { s.toolCalls with successful := s.toolCalls.successful + 1 } }
    else
      { s with toolCalls :=
          { s.toolCalls with failed := s.toolCalls.failed + 1 } }
  | .state_changed _ key _ newValue =>
    { s with vars := setVar s.vars key newValue }
  | .agent_completed t result success totalIterations _ =>
    { s with
        status := if success then .completed else .failed
        endTime := some t
        iterations := totalIterations
        result := some result }
  | .error_occurred _ error recoverable =>
    let s := { s with errors := s.errors ++ [error] }
    if recoverable then s else { s with status := .failed }

/-- The fold `deriveState` (event-store.ts lines 105-163). -/
def deriveState (events : List AgentEvent) : AgentState :=
  events.foldl applyEvent initialState

-- =============================================================================
-- Conversation and tool model (src/patterns/types.ts usage sites)
-- =============================================================================

/-- Message roles (system / user / assistant / tool). -/
inductive Role where
  | system
  | user
  | assistant
  | tool
  deriving DecidableEq, Repr

/-- One action request issued by the decision backend (`ToolCall`). -/
structure ToolCall where
  id : String
  name : String
  arguments : Args
  deriving DecidableEq, Repr

/-- One conversation turn (`Message`): assistant turns may carry pending
tool calls; tool turns answer a specific call id. -/
structure Message where
  role : Role
  content : String
  tool_calls : List ToolCall := []
  tool_call_id : Option String := none
  deriving DecidableEq, Repr

/-- Outcome of `tool.execute(args)`. Exceptions become variants:
`taskComplete r` is a thrown `TaskComplete(r)` signal (the done tool),
`err m` any other thrown error with message `m`. -/
inductive ExecOutcome where
  | ok (result : String)
  | taskComplete (result : String)
  | err (msg : String)
  deriving DecidableEq, Repr

/-- An executable capability (`Tool`). The JSON parameter schema is kept as
an uninterpreted string; it is never read by the engine. -/
structure Tool where
  name : String
  description : String := ""
  execute : Args → ExecOutcome

/-- The decision backend response (`LLMResponse`): text content, a list of
action requests, and the optional legacy `done`/`result` pair. -/
structure LLMResponse where
  content : String
  toolCalls : List ToolCall
  done : Bool := false
  result : Option String := none

/-- A decision backend: conversation history to response. The action
catalog argument of `invoke` is omitted: both loops pass the constant
`tools` list, already a parameter of the loop itself. -/
abbrev LLM := List Message → LLMResponse

-- =============================================================================
-- Event log handle (src/example/state/event-store.ts `EventStore`)
-- =============================================================================

/-- An event-store handle as the loop sees it: whether one is attached,
the events recorded so far, and the logical clock standing in for
`Date.now()`. -/
structure Log where
  attached : Bool
  events : List AgentEvent
  now : Nat
  deriving Repr

/-- The call-site pattern `if (eventStore) await eventStore.append(e)`:
append with the current time as timestamp, then advance the clock. -/
def Log.push (lg : Log) (e : Nat → AgentEvent) : Log :=
  if lg.attached then
    { lg with events := lg.events ++ [e lg.now], now := lg.now + 1 }
  else lg

-- =============================================================================
-- The example agent loop (src/example/index.ts `agent`)
-- =============================================================================

/-- Mutable state of one run of the example loop: the conversation and the
event-store handle. -/
structure LoopState where
  msgs : List Message
  log : Log
  deriving Repr

/-- Result of processing the tool calls of one iteration
(the inner `for` of index.ts lines 176-263). -/
inductive CallsOutcome where
  | next (st : LoopState)
  | finished (result : String) (st : LoopState)
  | raised (msg : String) (st : LoopState)
  deriving Repr

/-- The state carried by a `CallsOutcome`. -/
def CallsOutcome.state : CallsOutcome → LoopState
  | .next st => st
  | .finished _ st => st
  | .raised _ st => st

/-- The unknown-tool error message (index.ts line 192). -/
def unknownToolMessage (name : String) : String :=
  "Error: Unknown tool \"" ++ name ++ "\""

/-- The inner loop over one response's tool calls (index.ts lines 176-263).
`iteration` and `startTime` are needed by the completion event emitted
when a `TaskComplete` signal is caught. -/
def runCalls (tools : List Tool) (iteration startTime : Nat) :
    List ToolCall → LoopState → CallsOutcome
  | [], st => .next st
  | call :: rest, st =>
    let tool? := tools.find? (fun t => t.name == call.name)
    let toolStartTime := st.log.now
    let lg1 := st.log.push (fun ts => .tool_called ts call.id call.name call.arguments)
    let st := { st with log := lg1 }
    match tool? with
    | none =>
      let errorMsg := unknownToolMessage call.name
      let toolMsg : Message := { role := .tool, content := errorMsg, tool_call_id := some call.id }
      let lg2 := st.log.push (fun ts => .tool_result ts call.id call.name errorMsg false (st.log.now - toolStartTime))
      let st := { st with msgs := st.msgs ++ [toolMsg], log := lg2 }
      runCalls tools iteration startTime rest st
    | some tool =>
      match tool.execute call.arguments with
      | .ok result =>
        let toolMsg : Message := { role := .tool, content := result, tool_call_id := some call.id }
        let lg2 := st.log.push (fun ts => .tool_result ts call.id call.name (result.take 500) (!(result.startsWith "Error")) (st.log.now - toolStartTime))
        let st := { st with msgs := st.msgs ++ [toolMsg], log := lg2 }
        runCalls tools iteration startTime rest st
      | .taskComplete r =>
        let lg2 := st.log.push (fun ts => .agent_completed ts r true iteration (st.log.now - startTime))
        let st := { st with log := lg2 }
        .finished r st
      | .err m =>
        .raised m st

/-- How one run of the example loop can end. -/
inductive LoopExit where
  | completedRun (result : String) (st : LoopState)
  | raisedRun (msg : String) (st : LoopState)
  | exhausted (st : LoopState)
  deriving Repr

/-- Payload of a loop exit caused by the `TaskComplete` signal. -/
def LoopExit.completedPayload : LoopExit → Option String
  | .completedRun r _ => some r
  | _ => none

/-- True when the loop ran out of iterations without a signal. -/
def LoopExit.isExhausted : LoopExit → Bool
  | .exhausted _ => true
  | _ => false

/-- The outer `for` of index.ts lines 141-267: query, push the assistant
turn, run tool calls, repeat. `fuel` counts the remaining iterations,
`iteration` the 1-based current iteration number. -/
def loopIter (llm : LLM) (tools : List Tool) (startTime : Nat) :
    Nat → Nat → LoopState → LoopExit
  | 0, _, st => .exhausted st
  | fuel + 1, iteration, st =>
    let response := llm st.msgs
    if response.toolCalls.isEmpty then
      let asstMsg : Message := { role := .assistant, content := response.content }
      let st := if response.content != "" then { st with msgs := st.msgs ++ [asstMsg] } else st
      loopIter llm tools startTime fuel (iteration + 1) st
    else
      let asstMsg : Message :=
        { role := .assistant, content := response.content, tool_calls := response.toolCalls }
      let st := { st with msgs := st.msgs ++ [asstMsg] }
      match runCalls tools iteration startTime response.toolCalls st with
      | .next st => loopIter llm tools startTime fuel (iteration + 1) st
      | .finished r st => .completedRun r st
      | .raised m st => .raisedRun m st

/-- The fixed advisory message returned on budget exhaustion
(index.ts lines 270-272 and 01-the-loop.ts lines 195-196). -/
def maxIterationsMessage (n : Nat) : String :=
  "Agent reached " ++ ("maximum iterations (" ++ toString n ++ ")") ++
    " without completing. Consider increasing maxIterations or simplifying the task."

/-- How the example `agent` function ends: a normal return or a propagated
(re-thrown) error. -/
inductive Outcome where
  | ok (result : String)
  | err (msg : String)
  deriving DecidableEq, Repr

/-- What a finished run exposes: the returned value or propagated error,
the recorded events, and the final conversation. -/
structure AgentRun where
  outcome : Outcome
  events : List AgentEvent
  msgs : List Message
  deriving Repr

/-- The initial loop state of the example agent (index.ts lines 113-133):
record `agent_started` (when a store is attached), then push the optional
system prompt and the user task. -/
def initState (task : String) (tools : List Tool) (systemPrompt : Option String)
    (store : Bool) (now0 : Nat) : LoopState :=
  let lg : Log := { attached := store, events := [], now := now0 }
  let lg := lg.push (fun ts => .agent_started ts task (tools.map (fun t => t.name)))
  let sys : List Message := match systemPrompt with
    | some sp => [{ role := .system, content := sp }]
    | none => []
  { msgs := sys ++ [{ role := .user, content := task }], log := lg }

/-- The example agent loop (index.ts `agent`, lines 95-286). `store` is
whether an event store was supplied; `now0` the clock at entry
(`startTime`). -/
def agent (task : String) (tools : List Tool) (llm : LLM) (maxIterations : Nat)
    (systemPrompt : Option String) (store : Bool) (now0 : Nat) : AgentRun :=
  let startTime := now0
  let st0 := initState task tools systemPrompt store now0
  match loopIter llm tools startTime maxIterations 1 st0 with
  | .completedRun r st => { outcome := .ok r, events := st.log.events, msgs := st.msgs }
  | .raisedRun m st => { outcome := .err m, events := st.log.events, msgs := st.msgs }
  | .exhausted st =>
    let failureResult := maxIterationsMessage maxIterations
    let lg := st.log.push (fun ts => .agent_completed ts failureResult false maxIterations (st.log.now - startTime))
    { outcome := .ok failureResult, events := lg.events, msgs := st.msgs }

/-- Read the string stored under `key`, modelling the unchecked cast
`args.result as string` (a non-string or missing value is read as the
empty string). -/
def argString (args : Args) (key : String) : String :=
  match args.find? (fun p => p.1 == key) with
  | some (_, .str s) => s
  | _ => ""

/-- The done tool (src/example/tools/done.ts): throws `TaskComplete` with
the `result` argument. -/
def doneTool : Tool :=
  { name := "done"
    description := "Signal that the task is complete and provide the final result."
    execute := fun args => .taskComplete (argString args "result") }

-- =============================================================================
-- The scaffolding loop (src/patterns/01-the-loop.ts `agent`)
-- =============================================================================

/-- Result of the scaffolding inner tool-call loop (01-the-loop.ts lines
159-188). There is no try/catch here: a throwing tool propagates out. -/
inductive PatCalls where
  | next (msgs : List Message)
  | raisedTC (r : String)
  | raisedErr (m : String)
  deriving Repr

/-- The scaffolding inner loop over tool calls (no events, no catch). -/
def patternsRunCalls (tools : List Tool) :
    List ToolCall → List Message → PatCalls
  | [], msgs => .next msgs
  | call :: rest, msgs =>
    match tools.find? (fun t => t.name == call.name) with
    | none =>
      let errorMsg := unknownToolMessage call.name
      let toolMsg : Message := { role := .tool, content := errorMsg, tool_call_id := some call.id }
      patternsRunCalls tools rest (msgs ++ [toolMsg])
    | some tool =>
      match tool.execute call.arguments with
      | .ok result =>
        let toolMsg : Message := { role := .tool, content := result, tool_call_id := some call.id }
        patternsRunCalls tools rest (msgs ++ [toolMsg])
      | .taskComplete r => .raisedTC r
      | .err m => .raisedErr m

/-- How the scaffolding `agent` ends: a normal return, or an uncaught
`TaskComplete` or other error propagating to the caller. -/
inductive PatExit where
  | returned (s : String)
  | raisedTC (r : String)
  | raisedErr (m : String)
  deriving DecidableEq, Repr

/-- The scaffolding outer loop (01-the-loop.ts lines 116-197). The `done`
flag on a response is honored here: `if (response.done) return
response.result ?? ''` runs before anything else. -/
def patternsLoop (llm : LLM) (tools : List Tool) (maxIterations : Nat) :
    Nat → List Message → PatExit
  | 0, _ => .returned (maxIterationsMessage maxIterations)
  | fuel + 1, msgs =>
    let response := llm msgs
    if response.done then
      .returned (response.result.getD "")
    else if response.toolCalls.isEmpty then
      let asstMsg : Message := { role := .assistant, content := response.content }
      let msgs := if response.content != "" then msgs ++ [asstMsg] else msgs
      patternsLoop llm tools maxIterations fuel msgs
    else
      let asstMsg : Message :=
        { role := .assistant, content := response.content, tool_calls := response.toolCalls }
      match patternsRunCalls tools response.toolCalls (msgs ++ [asstMsg]) with
      | .next msgs => patternsLoop llm tools maxIterations fuel msgs
      | .raisedTC r => .raisedTC r
      | .raisedErr m => .raisedErr m

/-- The scaffolding `agent` (01-the-loop.ts lines 85-197). -/
def patternsAgent (task : String) (tools : List Tool) (llm : LLM)
    (maxIterations : Nat) (systemPrompt : Option String) : PatExit :=
  let sys : List Message := match systemPrompt with
    | some sp => [{ role := .system, content := sp }]
    | none => []
  patternsLoop llm tools maxIterations maxIterations
    (sys ++ [{ role := .user, content := task }])

-- =============================================================================
-- Supporting lemmas about the example loop
-- =============================================================================

/-- The state carried by a `LoopExit`. -/
def LoopExit.state : LoopExit → LoopState
  | .completedRun _ st => st
  | .raisedRun _ st => st
  | .exhausted st => st

/-- Scripted backend for the C1 witness: always requests the done tool. -/
def llmC1 : LLM := fun _ =>
  { content := ""
    toolCalls := [{ id := "call-1", name := "done", arguments := [("result", .str "X")] }] }

/-- Scripted backend for the C2 witness: replies with text only, never a
tool call, so the budget of 1 iteration is exhausted. -/
def llmC2 : LLM := fun _ => { content := "still thinking", toolCalls := [] }

/-- The tool message recorded for an unknown action request. -/
def unknownToolMsg (call : ToolCall) : Message :=
  { role := .tool, content := unknownToolMessage call.name, tool_call_id := some call.id }

/-- Concrete unknown action request for the C3 witness. -/
def callMissing : ToolCall := { id := "call-7", name := "missing_tool", arguments := [] }

/-- Concrete loop state with an attached store for the C3 witness. -/
def stEmpty : LoopState :=
  { msgs := [], log := { attached := true, events := [], now := 0 } }

/-- Backend that reports `done = true` with a result, issuing no action
requests (for the C4 counterexample and witness). -/
def llmDoneTrue : LLM := fun _ =>
  { content := "", toolCalls := [], done := true, result := some "X" }

/-- The same backend with `done = false`: identical content and action
requests, differing only in the legacy flag. -/
def llmDoneFalse : LLM := fun _ =>
  { content := "", toolCalls := [], done := false, result := some "X" }

/-- Concrete event for the C5 witness. -/
def evSample : AgentEvent := .agent_started 0 "t" ["done"]

/-- Events showing the `iterations` field is not monotone: a later
`agent_completed` event overwrites it with a smaller `totalIterations`. -/
def esC6 : List AgentEvent := [.agent_completed 0 "r" true 5 0]

/-- The appended suffix for the C6 counterexample. -/
def moreC6 : List AgentEvent := [.agent_completed 1 "r" true 3 0]

-- =============================================================================
-- Coordinator data model (src/example/orchestration/coordinator.ts)
-- =============================================================================

/-- A task given to the coordinator (source name `Task`, renamed because
Lean core already declares `Task`). The optional `context` record is
modelled with default `[]`; it is never read. -/
structure CoordTask where
  id : String
  description : String
  context : Args := []
  deriving DecidableEq, Repr

/-- Subtask kinds (`Subtask.type`). -/
inductive SubtaskKind where
  | search
  | review
  | compare
  deriving DecidableEq, Repr

/-- The string form of a subtask kind (its TS enum literal). -/
def SubtaskKind.str : SubtaskKind → String
  | .search => "search"
  | .review => "review"
  | .compare => "compare"

/-- A subtask (`Subtask`): a task fragment owned by one parent. -/
structure Subtask where
  id : String
  parentId : String
  description : String
  type : SubtaskKind
  parameters : Args
  deriving DecidableEq, Repr

/-- A worker outcome (`WorkerResult`). `data` is optional and never set by
this program's workers. -/
structure WorkerResult where
  subtaskId : String
  success : Bool
  output : String
  data : Option JVal := none
  durationMs : Nat
  deriving DecidableEq, Repr

/-- The final coordination result (`CoordinatorResult`). `confidence` is a
rational: the source's 0.7/0.1/0.95 literals are modelled exactly. -/
structure CoordinatorResult where
  taskId : String
  success : Bool
  summary : String
  subtaskResults : List WorkerResult
  totalDurationMs : Nat
  recommendation : String
  reasoning : String
  confidence : ℚ
  alternatives : List (String × String)
  deriving DecidableEq, Repr

-- =============================================================================
-- Worker (coordinator.ts `Worker.execute`, lines 79-138)
-- =============================================================================

/-- `Worker.execute(subtask)`: record `tool_called`, run the tool inside a
catch-all, record `tool_result`, and report failure in the outcome rather
than raising. The catch-all also catches a stray `TaskComplete`; the
thrown signal's `message` is modelled as its carried result text (the
`TaskComplete` class body lives outside the included sources). -/
def workerExecute (tool : Tool) (subtask : Subtask) (lg : Log) :
    WorkerResult × Log :=
  let startTime := lg.now
  let lg := lg.push (fun ts => .tool_called ts subtask.id tool.name subtask.parameters)
  match tool.execute subtask.parameters with
  | .ok result =>
    let durationMs := lg.now - startTime
    let lg := lg.push (fun ts => .tool_result ts subtask.id tool.name (result.take 500) true durationMs)
    ({ subtaskId := subtask.id, success := true, output := result, durationMs := durationMs }, lg)
  | .taskComplete r =>
    let durationMs := lg.now - startTime
    let lg := lg.push (fun ts => .tool_result ts subtask.id tool.name r false durationMs)
    ({ subtaskId := subtask.id, success := false, output := r, durationMs := durationMs }, lg)
  | .err m =>
    let durationMs := lg.now - startTime
    let lg := lg.push (fun ts => .tool_result ts subtask.id tool.name m false durationMs)
    ({ subtaskId := subtask.id, success := false, output := m, durationMs := durationMs }, lg)

-- =============================================================================
-- Coordinator construction and analysis (coordinator.ts lines 156-224)
-- =============================================================================

/-- JS `Map.set`: replace the value under an existing key in place, else
append the new key at the end. -/
def mapSet (m : List (String × Tool)) (k : String) (v : Tool) :
    List (String × Tool) :=
  match m with
  | [] => [(k, v)]
  | (k', v') :: rest => if k' == k then (k, v) :: rest else (k', v') :: mapSet rest k v

/-- JS `Map.get`. -/
def mapGet (m : List (String × Tool)) (k : String) : Option Tool :=
  (m.find? (fun p => p.1 == k)).map (fun p => p.2)

/-- The constructor loop (coordinator.ts lines 169-174): one worker per
tool except `done`. A worker is just its tool here; the shared event
store is threaded separately as a `Log`. -/
def buildWorkers (tools : List Tool) : List (String × Tool) :=
  tools.foldl (fun m t => if t.name == "done" then m else mapSet m t.name t) []

/-- Digit run to a number (`parseInt(digits, 10)`). -/
def digitsToNat (ds : List Char) : Nat :=
  ds.foldl (fun n c => n * 10 + (c.toNat - 48)) 0

/-- Case-insensitive prefix test, for the `i` regex flag. -/
def charsStartWithCI : List Char → List Char → Bool
  | _, [] => true
  | [], _ :: _ => false
  | c :: cs, p :: ps => (c.toLower == p.toLower) && charsStartWithCI cs ps

/-- Try to match `/under\s*\$?(\d+)/i` at the start of `s`:
"under", then whitespace, then an optional dollar sign, then at least one
digit. Greedy matching is equivalent to the regex here because neither
`\$?` nor `\d+` can match whitespace. -/
def matchUnderAt (s : List Char) : Option Nat :=
  if charsStartWithCI s ("under".data) then
    let afterWs := (s.drop 5).dropWhile Char.isWhitespace
    let afterDollar := match afterWs with
      | '$' :: rest => rest
      | _ => afterWs
    let digits := afterDollar.takeWhile Char.isDigit
    if digits.isEmpty then none else some (digitsToNat digits)
  else none

/-- Leftmost match of `/under\s*\$?(\d+)/i` (coordinator.ts line 209). -/
def findUnderPrice : List Char → Option Nat
  | [] => none
  | c :: rest =>
    match matchUnderAt (c :: rest) with
    | some p => some p
    | none => findUnderPrice rest

/-- The first recognized use case contained in the lowercased description
(coordinator.ts lines 215-221). -/
def firstUseCase (description : String) : Option String :=
  ["programming", "gaming", "video editing", "business", "student"].find?
    (fun uc => strContainsSub description.toLower uc)

/-- `extractSearchParams` (coordinator.ts lines 205-224): an optional
`maxPrice` from the price regex, then an optional `query` use case. -/
def extractSearchParams (description : String) : Args :=
  (match findUnderPrice description.data with
    | some p => [("maxPrice", JVal.num p)]
    | none => []) ++
  (match firstUseCase description with
    | some uc => [("query", JVal.str uc)]
    | none => [])

/-- `analyze` (coordinator.ts lines 182-200): always exactly the initial
search subtask. -/
def analyze (task : CoordTask) : List Subtask :=
  [{ id := task.id ++ "-search"
     parentId := task.id
     description := "Search for matching products"
     type := .search
     parameters := extractSearchParams task.description }]

-- =============================================================================
-- Product-id extraction (coordinator.ts lines 316-326)
-- =============================================================================

/-- Is `/laptop-\d{3}/` matched at the head of `s`? -/
def idMatchAt (s : List Char) : Bool :=
  charsStartWith s ("laptop-".data) &&
    (let ds := (s.drop 7).take 3
     ds.length == 3 && ds.all Char.isDigit)

/-- Global scan for `/laptop-\d{3}/g`: after a match the scan resumes past
it (`regex.exec` advances `lastIndex`), otherwise one character on. The
fuel equals the remaining length, which every step strictly decreases, so
it never runs out; it only makes the recursion structural. -/
def findIdsAux : Nat → List Char → List String
  | 0, _ => []
  | _ + 1, [] => []
  | fuel + 1, c :: rest =>
    if idMatchAt (c :: rest) then
      ((c :: rest).take 10).asString :: findIdsAux fuel ((c :: rest).drop 10)
    else findIdsAux fuel rest

/-- `extractProductIds` (coordinator.ts lines 316-326): all matches of
`/laptop-\d{3}/g`, deduplicated keeping first occurrences (the `includes`
check before each push). -/
def extractProductIds (s : String) : List String :=
  (findIdsAux s.data.length s.data).foldl
    (fun ids m => if ids.contains m then ids else ids ++ [m]) []

-- =============================================================================
-- Delegation (coordinator.ts lines 231-299)
-- =============================================================================

/-- Subtask-kind to worker name (coordinator.ts `getWorkerForSubtask`,
lines 304-311; the `|| subtask.type` fallback is unreachable because the
mapping is total). -/
def getWorkerForSubtask (subtask : Subtask) : String :=
  match subtask.type with
  | .search => "search_products"
  | .review => "get_reviews"
  | .compare => "compare_specs"

/-- Review subtasks for the first three extracted product ids
(coordinator.ts lines 252-259). -/
def reviewSubtasks (parentId : String) (ids : List String) : List Subtask :=
  ((ids.take 3).enum).map (fun p =>
    { id := parentId ++ "-review-" ++ toString p.1
      parentId := parentId
      description := "Get reviews for " ++ p.2
      type := .review
      parameters := [("productId", JVal.str p.2)] })

/-- The comparison subtask (coordinator.ts lines 281-287). -/
def compareSubtask (parentId : String) (ids : List String) : Subtask :=
  { id := parentId ++ "-compare"
    parentId := parentId
    description := "Compare top products"
    type := .compare
    parameters := [("productIds", JVal.strs (ids.take 4))] }

/-- The fan-out over review subtasks (coordinator.ts lines 262-275).
`Promise.all` keeps results in subtask order; the event appends of the
concurrently running workers are serialized here in that same order (one
admissible total order of the shared log). -/
def runReviews (workers : List (String × Tool)) :
    List Subtask → Log → List WorkerResult × Log
  | [], lg => ([], lg)
  | s :: rest, lg =>
    match mapGet workers "get_reviews" with
    | some w =>
      let step := workerExecute w s lg
      let further := runReviews workers rest step.2
      (step.1 :: further.1, further.2)
    | none =>
      let further := runReviews workers rest lg
      ({ subtaskId := s.id, success := false, output := "No review worker available", durationMs := 0 } :: further.1, further.2)

/-- The main `delegate` loop (coordinator.ts lines 231-299): execute each
planned subtask in order; after a successful search, fan out reviews for
up to three extracted ids and, given at least two ids, one comparison. -/
def delegateGo (workers : List (String × Tool)) :
    List Subtask → List WorkerResult → Log → List WorkerResult × Log
  | [], acc, lg => (acc, lg)
  | sub :: rest, acc, lg =>
    match mapGet workers (getWorkerForSubtask sub) with
    | none =>
      delegateGo workers rest (acc ++ [{ subtaskId := sub.id, success := false, output := "No worker available for subtask type: " ++ sub.type.str, durationMs := 0 }]) lg
    | some w =>
      let step := workerExecute w sub lg
      let acc := acc ++ [step.1]
      let lg := step.2
      if sub.type == .search && step.1.success then
        let productIds := extractProductIds step.1.output
        let reviews := runReviews workers (reviewSubtasks sub.parentId productIds) lg
        let acc := acc ++ reviews.1
        let lg := reviews.2
        if productIds.length ≥ 2 then
          match mapGet workers "compare_specs" with
          | some cw =>
            let cstep := workerExecute cw (compareSubtask sub.parentId productIds) lg
            delegateGo workers rest (acc ++ [cstep.1]) cstep.2
          | none => delegateGo workers rest acc lg
        else delegateGo workers rest acc lg
      else delegateGo workers rest acc lg

/-- `delegate` (coordinator.ts lines 231-299). -/
def delegate (workers : List (String × Tool)) (subtasks : List Subtask)
    (lg : Log) : List WorkerResult × Log :=
  delegateGo workers subtasks [] lg

-- =============================================================================
-- Aggregation (coordinator.ts lines 333-406)
-- =============================================================================

/-- One step of the confidence loop (coordinator.ts lines 358-362): a
successful review containing "5/5" raises confidence by 0.1, capped at
0.95. -/
def confStep (c : ℚ) (rev : WorkerResult) : ℚ :=
  if rev.success && strContainsSub rev.output "5/5" then min (c + 0.1) 0.95 else c

/-- `aggregate` (coordinator.ts lines 333-406). -/
def aggregate (task : CoordTask) (results : List WorkerResult) : CoordinatorResult :=
  let totalDurationMs := results.foldl (fun sum r => sum + r.durationMs) 0
  let successful := results.filter (fun r => r.success)
  let failed := results.filter (fun r => !r.success)
  let searchResult := results.find? (fun r => strContainsSub r.subtaskId "search")
  let reviewResults := results.filter (fun r => strContainsSub r.subtaskId "review")
  let compareResult := results.find? (fun r => strContainsSub r.subtaskId "compare")
  let searchOk := match searchResult with
    | some r => r.success
    | none => false
  let compareOk := match compareResult with
    | some r => r.success
    | none => false
  let rca : String × ℚ × List (String × String) :=
    match searchResult with
    | some sr =>
      if sr.success then
        match extractProductIds sr.output with
        | [] => ("laptop-001", (0.7 : ℚ), [])
        | id0 :: restIds =>
          let conf := reviewResults.foldl confStep (0.7 : ℚ)
          let alts := (((id0 :: restIds).take 3).drop 1).map
            (fun i => (i, "Also matches your criteria"))
          (id0, conf, alts)
      else ("laptop-001", (0.7 : ℚ), [])
    | none => ("laptop-001", (0.7 : ℚ), [])
  let reasoning := "Based on "
    ++ (if searchOk then "search results, " else "")
    ++ (if reviewResults.any (fun r => r.success) then "user reviews, " else "")
    ++ (if compareOk then "spec comparison, " else "")
    ++ "this product best matches your requirements. "
    ++ "(" ++ toString successful.length ++ "/" ++ toString results.length
    ++ " subtasks completed successfully)"
  let summary :=
    if failed.length == 0 then
      "Successfully completed " ++ toString successful.length ++ " subtasks"
    else
      "Completed " ++ toString successful.length ++ "/" ++ toString results.length
        ++ " subtasks. Failures: "
        ++ String.intercalate ", " (failed.map (fun f => f.subtaskId))
  { taskId := task.id
    success := failed.length == 0
    summary := summary
    subtaskResults := results
    totalDurationMs := totalDurationMs
    recommendation := rca.1
    reasoning := reasoning
    confidence := rca.2.1
    alternatives := rca.2.2 }

-- =============================================================================
-- Coordination (coordinator.ts lines 411-448)
-- =============================================================================

/-- The `JSON.stringify` payload of the final `agent_completed` event
(coordinator.ts lines 437-440). The numeric rendering of the confidence is
modelled as `num/den`; no claim inspects this string. -/
def completionPayload (recommendation : String) (confidence : ℚ) : String :=
  "\x7b\"recommendation\":\"" ++ recommendation ++ "\",\"confidence\":"
    ++ toString confidence.num ++ "/" ++ toString confidence.den ++ "\x7d"

/-- `coordinate` (coordinator.ts lines 411-448): analyze, delegate,
aggregate, bracketed by `agent_started` / `agent_completed` events. The
stored LLM client of the Coordinator class is never invoked by any of the
four phases and is omitted. -/
def coordinate (tools : List Tool) (task : CoordTask) (lg : Log) :
    CoordinatorResult × Log :=
  let startTime := lg.now
  let workers := buildWorkers tools
  let lg := lg.push (fun ts => .agent_started ts task.description (workers.map (fun p => p.1)))
  let subtasks := analyze task
  let dres := delegate workers subtasks lg
  let results := dres.1
  let lg := dres.2
  let aggRes := aggregate task results
  let finalRes := { aggRes with totalDurationMs := lg.now - startTime }
  let lg := lg.push (fun ts => .agent_completed ts (completionPayload finalRes.recommendation finalRes.confidence) finalRes.success results.length finalRes.totalDurationMs)
  (finalRes, lg)

/-- C8 counterexample ingredients: two failed outcomes with distinct ids. -/
def wrA : WorkerResult := { subtaskId := "a", success := false, output := "", durationMs := 0 }

/-- Second failed outcome for the C8 counterexample. -/
def wrB : WorkerResult := { subtaskId := "b", success := false, output := "", durationMs := 0 }

/-- Concrete task for the C8 counterexample and witness. -/
def taskC8 : CoordTask := { id := "t1", description := "d" }

/-- A concrete always-throwing action for the C9 witness. -/
def boomTool : Tool := { name := "boom", execute := fun _ => .err "kaput" }

/-- A concrete subtask for the C9 witness. -/
def subC9 : Subtask :=
  { id := "s1", parentId := "t1", description := "d", type := .search, parameters := [] }

/-- A concrete attached log for the C9 witness. -/
def lgC9 : Log := { attached := true, events := [], now := 0 }

-- =============================================================================
-- Theorems
-- =============================================================================

theorem Log.push_attached (lg : Log) (e : Nat → AgentEvent) :
    (lg.push e).attached = lg.attached := by
  unfold Log.push; split <;> rfl

theorem initState_attached (task : String) (tools : List Tool)
    (sp : Option String) (store : Bool) (now0 : Nat) :
    (initState task tools sp store now0).log.attached = store := by
  simp [initState, Log.push_attached]

theorem Log.push_events_attached (lg : Log) (e : Nat → AgentEvent)
    (h : lg.attached = true) :
    (lg.push e).events = lg.events ++ [e lg.now] := by
  simp [Log.push, h]

theorem runCalls_state_attached (tools : List Tool) (iteration startTime : Nat)
    (calls : List ToolCall) (st : LoopState) :
    ((runCalls tools iteration startTime calls st).state).log.attached
      = st.log.attached := by
  induction calls generalizing st with
  | nil => rfl
  | cons call rest ih =>
    simp only [runCalls]
    split
    · rw [ih]; simp [Log.push_attached]
    · split
      · rw [ih]; simp [Log.push_attached]
      · simp [CallsOutcome.state, Log.push_attached]
      · simp [CallsOutcome.state, Log.push_attached]

theorem loopIter_state_attached (llm : LLM) (tools : List Tool) (startTime : Nat)
    (fuel : Nat) : ∀ (iteration : Nat) (st : LoopState),
    ((loopIter llm tools startTime fuel iteration st).state).log.attached
      = st.log.attached := by
  induction fuel with
  | zero => intro iteration st; rfl
  | succ fuel ih =>
    intro iteration st
    simp only [loopIter]
    split
    · rw [ih]; split <;> rfl
    · split
      · rename_i st2 heq
        rw [ih]
        have hrc := runCalls_state_attached tools iteration startTime
          (llm st.msgs).toolCalls
          { st with msgs := st.msgs ++
            [{ role := .assistant, content := (llm st.msgs).content,
               tool_calls := (llm st.msgs).toolCalls }] }
        rw [heq] at hrc
        exact hrc
      · rename_i r st2 heq
        have hrc := runCalls_state_attached tools iteration startTime
          (llm st.msgs).toolCalls
          { st with msgs := st.msgs ++
            [{ role := .assistant, content := (llm st.msgs).content,
               tool_calls := (llm st.msgs).toolCalls }] }
        rw [heq] at hrc
        exact hrc
      · rename_i m st2 heq
        have hrc := runCalls_state_attached tools iteration startTime
          (llm st.msgs).toolCalls
          { st with msgs := st.msgs ++
            [{ role := .assistant, content := (llm st.msgs).content,
               tool_calls := (llm st.msgs).toolCalls }] }
        rw [heq] at hrc
        exact hrc

theorem runCalls_finished_events (tools : List Tool) (iteration startTime : Nat)
    (calls : List ToolCall) (st : LoopState) (r : String) (st' : LoopState)
    (hatt : st.log.attached = true)
    (h : runCalls tools iteration startTime calls st = .finished r st') :
    ∃ pre ts d, st'.log.events = pre ++ [.agent_completed ts r true iteration d] := by
  induction calls generalizing st with
  | nil => simp [runCalls] at h
  | cons call rest ih =>
    simp only [runCalls] at h
    split at h
    · exact ih _ (by simp [Log.push_attached, hatt]) h
    · split at h
      · exact ih _ (by simp [Log.push_attached, hatt]) h
      · cases h
        have h1 : (st.log.push
            (fun u => AgentEvent.tool_called u call.id call.name call.arguments)).attached
            = true := by
          rw [Log.push_attached]; exact hatt
        simp only [Log.push_events_attached _ _ h1]
        exact ⟨_, _, _, rfl⟩
      · simp at h

theorem loopIter_completed_events (llm : LLM) (tools : List Tool)
    (startTime : Nat) (fuel : Nat) :
    ∀ (iteration : Nat) (st : LoopState) (r : String) (st' : LoopState),
    st.log.attached = true →
    loopIter llm tools startTime fuel iteration st = .completedRun r st' →
    ∃ pre ts itn d, st'.log.events = pre ++ [.agent_completed ts r true itn d] := by
  induction fuel with
  | zero => intro iteration st r st' _ h; simp [loopIter] at h
  | succ fuel ih =>
    intro iteration st r st' hatt h
    simp only [loopIter] at h
    split at h
    · split at h
      · refine ih _ _ _ _ ?_ h; exact hatt
      · refine ih _ _ _ _ ?_ h; exact hatt
    · split at h
      · rename_i st2 heq
        have hrc := runCalls_state_attached tools iteration startTime
          (llm st.msgs).toolCalls
          { st with msgs := st.msgs ++
            [{ role := .assistant, content := (llm st.msgs).content,
               tool_calls := (llm st.msgs).toolCalls }] }
        rw [heq] at hrc
        simp only [CallsOutcome.state] at hrc
        refine ih _ _ _ _ ?_ h
        rw [hrc]; exact hatt
      · rename_i r2 st2 heq
        cases h
        obtain ⟨pre, ts, d, hev⟩ :=
          runCalls_finished_events tools iteration startTime
            (llm st.msgs).toolCalls
            { st with msgs := st.msgs ++
            [{ role := .assistant, content := (llm st.msgs).content,
               tool_calls := (llm st.msgs).toolCalls }] }
            _ _ hatt heq
        exact ⟨pre, ts, iteration, d, hev⟩
      · simp at h

theorem deriveState_append_completed (pre : List AgentEvent) (ts : Nat)
    (r : String) (b : Bool) (itn d : Nat) :
    (deriveState (pre ++ [.agent_completed ts r b itn d])).status
        = (if b then RunStatus.completed else .failed)
      ∧ (deriveState (pre ++ [.agent_completed ts r b itn d])).result = some r := by
  unfold deriveState
  rw [List.foldl_append]
  constructor <;> simp [applyEvent]

-- =============================================================================
-- String containment helper lemmas
-- =============================================================================

theorem charsStartWith_self_append (s b : List Char) :
    charsStartWith (s ++ b) s = true := by
  induction s with
  | nil => simp [charsStartWith]
  | cons c cs ih => simp [charsStartWith, ih]

theorem charsContain_append (a s b : List Char) :
    charsContain (a ++ (s ++ b)) s = true := by
  induction a with
  | nil =>
    cases s with
    | nil => cases b <;> simp [charsContain, charsStartWith]
    | cons c cs =>
      have hsw := charsStartWith_self_append (c :: cs) b
      rw [List.cons_append] at hsw
      simp [charsContain, hsw]
  | cons x a' ih => simp [charsContain, ih]

theorem strContainsSub_unknownToolMessage (name : String) :
    strContainsSub (unknownToolMessage name) name = true := by
  unfold strContainsSub unknownToolMessage
  have hd : ("Error: Unknown tool \"" ++ name ++ "\"").data
      = "Error: Unknown tool \"".data ++ (name.data ++ "\"".data) := by
    simp [String.data_append]
  rw [hd]
  exact charsContain_append _ _ _

-- =============================================================================
-- C1 .. C3
-- =============================================================================

/-- C1: for every run of the example agent loop in which an executed action
raises the `TaskComplete` signal (the loop exits with `completedRun`), the
loop returns the signal's payload as the final result, the recorded events
(store attached) end with an `agent_completed` event with `success = true`,
and the state derived from the event sequence has status `completed` and
result equal to the payload. -/
theorem c1_termination_signal
    (task : String) (tools : List Tool) (llm : LLM) (maxIterations : Nat)
    (sp : Option String) (now0 : Nat) (r : String)
    (h : (loopIter llm tools now0 maxIterations 1
        (initState task tools sp true now0)).completedPayload = some r) :
    (agent task tools llm maxIterations sp true now0).outcome = .ok r
    ∧ (∃ pre ts itn d, (agent task tools llm maxIterations sp true now0).events
        = pre ++ [.agent_completed ts r true itn d])
    ∧ (deriveState (agent task tools llm maxIterations sp true now0).events).status
        = .completed
    ∧ (deriveState (agent task tools llm maxIterations sp true now0).events).result
        = some r := by
  cases hle : loopIter llm tools now0 maxIterations 1 (initState task tools sp true now0) with
  | completedRun r2 st2 =>
    rw [hle] at h
    simp only [LoopExit.completedPayload, Option.some.injEq] at h
    subst h
    have hag : agent task tools llm maxIterations sp true now0
        = { outcome := .ok r2, events := st2.log.events, msgs := st2.msgs } := by
      simp only [agent, hle]
    obtain ⟨pre, ts, itn, d, hev⟩ := loopIter_completed_events llm tools now0
      maxIterations 1 (initState task tools sp true now0) r2 st2
      (by rw [initState_attached]) hle
    have hst := deriveState_append_completed pre ts r2 true itn d
    refine ⟨by rw [hag], ⟨pre, ts, itn, d, by rw [hag]; exact hev⟩, ?_, ?_⟩
    · rw [hag]
      show (deriveState st2.log.events).status = .completed
      rw [hev]
      simpa using hst.1
    · rw [hag]
      show (deriveState st2.log.events).result = some r2
      rw [hev]
      exact hst.2
  | raisedRun m st2 =>
    rw [hle] at h
    simp [LoopExit.completedPayload] at h
  | exhausted st2 =>
    rw [hle] at h
    simp [LoopExit.completedPayload] at h

/-- Witness for C1 at a concrete run: the backend calls the done tool with
payload "X" and the agent returns `.ok "X"`. -/
theorem c1_termination_signal_witness :
    (loopIter llmC1 [doneTool] 0 3 1
        (initState "find a laptop" [doneTool] none true 0)).completedPayload = some "X"
    ∧ (agent "find a laptop" [doneTool] llmC1 3 none true 0).outcome = .ok "X" :=
  ⟨by decide,
    (c1_termination_signal "find a laptop" [doneTool] llmC1 3 none 0 "X" (by decide)).1⟩

/-- C2: for every run of the example agent loop in which the iteration
budget is exhausted without a termination signal, the loop returns normally
with the fixed advisory message (which contains "maximum iterations (N)"
for the configured `N`), and the recorded events (store attached) end with
an `agent_completed` event with `success = false` and `totalIterations`
equal to `maxIterations`. -/
theorem c2_budget_exhaustion
    (task : String) (tools : List Tool) (llm : LLM) (maxIterations : Nat)
    (sp : Option String) (now0 : Nat)
    (h : (loopIter llm tools now0 maxIterations 1
        (initState task tools sp true now0)).isExhausted = true) :
    (agent task tools llm maxIterations sp true now0).outcome
        = .ok (maxIterationsMessage maxIterations)
    ∧ (∃ pre post, maxIterationsMessage maxIterations
        = pre ++ ("maximum iterations (" ++ toString maxIterations ++ ")") ++ post)
    ∧ (∃ pre ts d, (agent task tools llm maxIterations sp true now0).events
        = pre ++ [.agent_completed ts (maxIterationsMessage maxIterations) false
            maxIterations d]) := by
  cases hle : loopIter llm tools now0 maxIterations 1 (initState task tools sp true now0) with
  | completedRun r st2 =>
    rw [hle] at h
    simp [LoopExit.isExhausted] at h
  | raisedRun m st2 =>
    rw [hle] at h
    simp [LoopExit.isExhausted] at h
  | exhausted st2 =>
    have hatt2 : st2.log.attached = true := by
      have h0 := loopIter_state_attached llm tools now0 maxIterations 1
        (initState task tools sp true now0)
      rw [hle] at h0
      simp only [LoopExit.state] at h0
      rw [h0, initState_attached]
    have hag : agent task tools llm maxIterations sp true now0
        = { outcome := .ok (maxIterationsMessage maxIterations),
            events := (st2.log.push (fun ts => .agent_completed ts
              (maxIterationsMessage maxIterations) false maxIterations
              (st2.log.now - now0))).events,
            msgs := st2.msgs } := by
      simp only [agent, hle]
    refine ⟨by rw [hag],
      ⟨"Agent reached ",
        " without completing. Consider increasing maxIterations or simplifying the task.",
        rfl⟩, ?_⟩
    rw [hag]
    show ∃ pre ts d, (st2.log.push (fun ts => AgentEvent.agent_completed ts
      (maxIterationsMessage maxIterations) false maxIterations
      (st2.log.now - now0))).events = pre ++ _
    rw [Log.push_events_attached _ _ hatt2]
    exact ⟨st2.log.events, st2.log.now, st2.log.now - now0, rfl⟩

/-- Witness for C2 at a concrete run with `maxIterations = 1`. -/
theorem c2_budget_exhaustion_witness :
    (loopIter llmC2 [doneTool] 0 1 1
        (initState "t" [doneTool] none true 0)).isExhausted = true
    ∧ (agent "t" [doneTool] llmC2 1 none true 0).outcome
        = .ok (maxIterationsMessage 1) :=
  ⟨by decide, (c2_budget_exhaustion "t" [doneTool] llmC2 1 none 0 (by decide)).1⟩

/-- C3: a requested action whose name is not in the tool list never raises:
processing it equals continuing with the remaining requests from a state
whose conversation gained a tool message whose content is an error string
referencing the unknown name, and (store attached) whose log gained a
`tool_called` event and a `tool_result` event with `success = false`. -/
theorem c3_unknown_action
    (tools : List Tool) (iteration startTime : Nat) (call : ToolCall)
    (rest : List ToolCall) (st : LoopState)
    (h : (tools.find? (fun t => t.name == call.name)).isNone = true) :
    ∃ st', runCalls tools iteration startTime (call :: rest) st
        = runCalls tools iteration startTime rest st'
      ∧ st'.msgs = st.msgs ++ [unknownToolMsg call]
      ∧ strContainsSub (unknownToolMessage call.name) call.name = true
      ∧ (st.log.attached = true → ∃ t1 t2 d, st'.log.events
          = st.log.events ++ [.tool_called t1 call.id call.name call.arguments,
              .tool_result t2 call.id call.name (unknownToolMessage call.name) false d]) := by
  have hfind : tools.find? (fun t => t.name == call.name) = none :=
    Option.isNone_iff_eq_none.mp h
  refine ⟨{ msgs := st.msgs ++ [unknownToolMsg call], log := (st.log.push (fun ts => .tool_called ts call.id call.name call.arguments)).push (fun ts => .tool_result ts call.id call.name (unknownToolMessage call.name) false ((st.log.push (fun ts => .tool_called ts call.id call.name call.arguments)).now - st.log.now)) },
    ?_, rfl, strContainsSub_unknownToolMessage call.name, ?_⟩
  · simp only [runCalls, hfind, unknownToolMsg]
  · intro hatt
    have h1 : (st.log.push
        (fun ts => AgentEvent.tool_called ts call.id call.name call.arguments)).attached
        = true := by
      rw [Log.push_attached]; exact hatt
    refine ⟨st.log.now,
      (st.log.push (fun ts => AgentEvent.tool_called ts call.id call.name call.arguments)).now,
      (st.log.push (fun ts => AgentEvent.tool_called ts call.id call.name call.arguments)).now
        - st.log.now, ?_⟩
    rw [Log.push_events_attached _ _ h1, Log.push_events_attached _ _ hatt]
    simp [List.append_assoc]

/-- Witness for C3 at a concrete unknown action request. -/
theorem c3_unknown_action_witness :
    (([doneTool].find? (fun t => t.name == callMissing.name)).isNone = true)
    ∧ (∃ st', runCalls [doneTool] 1 0 (callMissing :: []) stEmpty
        = runCalls [doneTool] 1 0 [] st'
      ∧ st'.msgs = stEmpty.msgs ++ [unknownToolMsg callMissing]
      ∧ strContainsSub (unknownToolMessage callMissing.name) callMissing.name = true
      ∧ (stEmpty.log.attached = true → ∃ t1 t2 d, st'.log.events
          = stEmpty.log.events ++ [.tool_called t1 callMissing.id callMissing.name
              callMissing.arguments,
              .tool_result t2 callMissing.id callMissing.name
                (unknownToolMessage callMissing.name) false d])) :=
  ⟨by decide, c3_unknown_action [doneTool] 1 0 callMissing [] stEmpty (by decide)⟩

-- =============================================================================
-- C4, C5
-- =============================================================================

theorem loopIter_ignores_done (llm llm' : LLM) (tools : List Tool) (startTime : Nat)
    (h : ∀ ms, (llm ms).content = (llm' ms).content
      ∧ (llm ms).toolCalls = (llm' ms).toolCalls) :
    ∀ (fuel iteration : Nat) (st : LoopState),
    loopIter llm tools startTime fuel iteration st
      = loopIter llm' tools startTime fuel iteration st := by
  intro fuel
  induction fuel with
  | zero => intro iteration st; rfl
  | succ fuel ih =>
    intro iteration st
    obtain ⟨hc, ht⟩ := h st.msgs
    simp only [loopIter, hc, ht]
    split
    · exact ih _ _
    · split
      · exact ih _ _
      · rfl
      · rfl

/-- C4 counterexample: the scaffolding engine of 01-the-loop.ts does NOT
ignore the `done` flag: with no tools at all (so no termination-signal
action can run), a backend response with `done = true` terminates the run
with the response's result, while the identical backend with
`done = false` exhausts the budget instead. -/
theorem c4_done_flag_counterexample :
    patternsAgent "t" [] llmDoneTrue 1 none = .returned "X"
    ∧ patternsAgent "t" [] llmDoneFalse 1 none = .returned (maxIterationsMessage 1)
    ∧ PatExit.returned "X" ≠ PatExit.returned (maxIterationsMessage 1) := by
  decide

/-- C4 (amended): the example engine of src/example/index.ts ignores the
response's `done`/`result` fields: two backends that agree on content and
action requests on every history produce identical runs (the scaffolding
loop of 01-the-loop.ts, by contrast, returns `response.result` when
`done = true`, as the counterexample shows). -/
theorem c4_example_ignores_done
    (task : String) (tools : List Tool) (llm llm' : LLM) (maxIterations : Nat)
    (sp : Option String) (store : Bool) (now0 : Nat)
    (h : ∀ ms, (llm ms).content = (llm' ms).content
      ∧ (llm ms).toolCalls = (llm' ms).toolCalls) :
    agent task tools llm maxIterations sp store now0
      = agent task tools llm' maxIterations sp store now0 := by
  simp only [agent]
  rw [loopIter_ignores_done llm llm' tools now0 h maxIterations 1
    (initState task tools sp store now0)]

/-- Witness for the amended C4 at two concrete backends differing only in
the `done`/`result` fields: the example agent runs are identical. -/
theorem c4_example_ignores_done_witness :
    agent "t" [] llmDoneTrue 1 none true 0 = agent "t" [] llmDoneFalse 1 none true 0 :=
  c4_example_ignores_done "t" [] llmDoneTrue llmDoneFalse 1 none true 0
    (fun _ => ⟨rfl, rfl⟩)

/-- C5: `deriveState` is pure and deterministic: equal event sequences give
identical states, and appending the empty list changes nothing. -/
theorem c5_derive_pure :
    (∀ es es' : List AgentEvent, es = es' → deriveState es = deriveState es')
    ∧ (∀ es : List AgentEvent, deriveState (es ++ []) = deriveState es) :=
  ⟨fun _ _ h => by rw [h], fun es => by simp⟩

/-- Witness for C5 at a concrete event sequence. -/
theorem c5_derive_pure_witness :
    deriveState [evSample] = deriveState [evSample]
    ∧ deriveState ([evSample] ++ []) = deriveState [evSample] :=
  ⟨c5_derive_pure.1 [evSample] [evSample] rfl, c5_derive_pure.2 [evSample]⟩

-- =============================================================================
-- C6
-- =============================================================================

theorem countOf_cons (k : String) (v : Nat) (rest : List (String × Nat)) (n : String) :
    countOf ((k, v) :: rest) n = if k == n then v else countOf rest n := by
  unfold countOf
  cases hk : (k == n) with
  | true => simp [List.find?, hk]
  | false => simp [List.find?, hk]

theorem countOf_bumpTool_le (l : List (String × Nat)) (name n : String) :
    countOf l n ≤ countOf (bumpTool l name) n := by
  induction l with
  | nil =>
    simp only [bumpTool, countOf_cons]
    cases hk : (name == n) <;> simp [hk, countOf]
  | cons p rest ih =>
    obtain ⟨k, v⟩ := p
    cases hk : (k == name) with
    | true =>
      simp only [bumpTool, hk, if_true, countOf_cons]
      cases hn : (k == n) <;> simp [hn]
    | false =>
      simp only [bumpTool, hk, Bool.false_eq_true, if_false]
      rw [countOf_cons, countOf_cons]
      cases hn : (k == n) <;> simp [hn, ih]

theorem applyEvent_counters_mono (s : AgentState) (e : AgentEvent) :
    s.toolCalls.total ≤ (applyEvent s e).toolCalls.total
    ∧ s.toolCalls.successful ≤ (applyEvent s e).toolCalls.successful
    ∧ s.toolCalls.failed ≤ (applyEvent s e).toolCalls.failed
    ∧ ∀ name, countOf s.toolCalls.byTool name
        ≤ countOf (applyEvent s e).toolCalls.byTool name := by
  cases e with
  | agent_started t task tools =>
    exact ⟨le_refl _, le_refl _, le_refl _, fun _ => le_refl _⟩
  | tool_called t cid tool args =>
    exact ⟨Nat.le_succ _, le_refl _, le_refl _,
      fun name => countOf_bumpTool_le _ _ _⟩
  | tool_result t cid tool res success d =>
    simp only [applyEvent]
    split
    · exact ⟨le_refl _, Nat.le_succ _, le_refl _, fun _ => le_refl _⟩
    · exact ⟨le_refl _, le_refl _, Nat.le_succ _, fun _ => le_refl _⟩
  | state_changed t k ov nv =>
    exact ⟨le_refl _, le_refl _, le_refl _, fun _ => le_refl _⟩
  | agent_completed t r success itn d =>
    exact ⟨le_refl _, le_refl _, le_refl _, fun _ => le_refl _⟩
  | error_occurred t err rcv =>
    simp only [applyEvent]
    split
    · exact ⟨le_refl _, le_refl _, le_refl _, fun _ => le_refl _⟩
    · exact ⟨le_refl _, le_refl _, le_refl _, fun _ => le_refl _⟩

theorem foldl_counters_mono (l : List AgentEvent) :
    ∀ s : AgentState,
    s.toolCalls.total ≤ (l.foldl applyEvent s).toolCalls.total
    ∧ s.toolCalls.successful ≤ (l.foldl applyEvent s).toolCalls.successful
    ∧ s.toolCalls.failed ≤ (l.foldl applyEvent s).toolCalls.failed
    ∧ ∀ name, countOf s.toolCalls.byTool name
        ≤ countOf ((l.foldl applyEvent s).toolCalls.byTool) name := by
  induction l with
  | nil => intro s; exact ⟨le_refl _, le_refl _, le_refl _, fun _ => le_refl _⟩
  | cons e rest ih =>
    intro s
    have h1 := applyEvent_counters_mono s e
    have h2 := ih (applyEvent s e)
    exact ⟨h1.1.trans h2.1, h1.2.1.trans h2.2.1, h1.2.2.1.trans h2.2.2.1,
      fun name => (h1.2.2.2 name).trans (h2.2.2.2 name)⟩

/-- C6 counterexample: appending events can DECREASE the `iterations`
field of the derived state, because `agent_completed` assigns
`iterations := totalIterations` rather than incrementing. -/
theorem c6_iterations_not_monotone :
    ¬ ((deriveState esC6).iterations ≤ (deriveState (esC6 ++ moreC6)).iterations) := by
  decide

/-- C6 (amended): the tool-call counters of the derived state — total,
successful, failed, and each per-tool count — are monotonically
non-decreasing under appends; the `iterations` field is excluded, being
the `totalIterations` of the last `agent_completed` event (see the
counterexample). -/
theorem c6_counters_monotone (es more : List AgentEvent) :
    (deriveState es).toolCalls.total ≤ (deriveState (es ++ more)).toolCalls.total
    ∧ (deriveState es).toolCalls.successful
        ≤ (deriveState (es ++ more)).toolCalls.successful
    ∧ (deriveState es).toolCalls.failed ≤ (deriveState (es ++ more)).toolCalls.failed
    ∧ ∀ name, countOf (deriveState es).toolCalls.byTool name
        ≤ countOf (deriveState (es ++ more)).toolCalls.byTool name := by
  unfold deriveState
  rw [List.foldl_append]
  exact foldl_counters_mono more (es.foldl applyEvent initialState)

-- =============================================================================
-- C7 .. C10
-- =============================================================================

/-- C7: for every task — in particular one whose description yields no
extractable parameters — `analyze` returns at least one subtask (exactly
the initial search subtask), and `coordinate` returns a well-formed
`CoordinatorResult` (its `taskId` is the given task's id). -/
theorem c7_minimal_subtask (task : CoordTask) (tools : List Tool) (lg : Log) :
    1 ≤ (analyze task).length
    ∧ (analyze task).map (fun s => s.type) = [.search]
    ∧ (coordinate tools task lg).1.taskId = task.id := by
  refine ⟨by simp [analyze], by simp [analyze], ?_⟩
  simp only [coordinate, aggregate]

theorem confStep_bounds (c : ℚ) (rev : WorkerResult)
    (h1 : (0.7 : ℚ) ≤ c) (h2 : c ≤ (0.95 : ℚ)) :
    (0.7 : ℚ) ≤ confStep c rev ∧ confStep c rev ≤ (0.95 : ℚ) := by
  unfold confStep
  split
  · exact ⟨le_min (by linarith) (by norm_num), min_le_right _ _⟩
  · exact ⟨h1, h2⟩

theorem confFold_bounds (l : List WorkerResult) :
    ∀ c : ℚ, (0.7 : ℚ) ≤ c → c ≤ (0.95 : ℚ) →
    (0.7 : ℚ) ≤ l.foldl confStep c ∧ l.foldl confStep c ≤ (0.95 : ℚ) := by
  induction l with
  | nil => intro c h1 h2; exact ⟨h1, h2⟩
  | cons rev rest ih =>
    intro c h1 h2
    have h := confStep_bounds c rev h1 h2
    exact ih _ h.1 h.2

theorem aggregate_confidence_bounds (task : CoordTask) (results : List WorkerResult) :
    (0.7 : ℚ) ≤ (aggregate task results).confidence
    ∧ (aggregate task results).confidence ≤ (0.95 : ℚ) := by
  simp only [aggregate]
  split
  · rename_i sr hsr
    split
    · split
      · exact ⟨le_refl _, by norm_num⟩
      · exact confFold_bounds _ _ (le_refl _) (by norm_num)
    · exact ⟨le_refl _, by norm_num⟩
  · exact ⟨le_refl _, by norm_num⟩

/-- C10: the confidence of every aggregation — and hence of every
coordination — lies between 0.7 and 0.95 inclusive: it starts at 0.7 and
every increment is capped at 0.95. -/
theorem c10_confidence_bounds (task : CoordTask) (results : List WorkerResult)
    (tools : List Tool) (lg : Log) :
    ((0.7 : ℚ) ≤ (aggregate task results).confidence
      ∧ (aggregate task results).confidence ≤ (0.95 : ℚ))
    ∧ ((0.7 : ℚ) ≤ (coordinate tools task lg).1.confidence
      ∧ (coordinate tools task lg).1.confidence ≤ (0.95 : ℚ)) :=
  ⟨aggregate_confidence_bounds task results,
    aggregate_confidence_bounds task _⟩

/-- C8 counterexample: `aggregate` is NOT order-independent: permuting two
failed outcomes changes the summary, because the failed subtask ids are
joined in list order. -/
theorem c8_summary_order_dependent :
    List.Perm [wrA, wrB] [wrB, wrA]
    ∧ (aggregate taskC8 [wrA, wrB]).summary ≠ (aggregate taskC8 [wrB, wrA]).summary := by
  constructor
  · exact List.Perm.swap wrB wrA []
  · decide

/-- C8 (amended): `aggregate` returns success true iff every outcome has
success true, and this success flag is the same for every permutation of
the outcomes; the synthesized text fields are not order-independent in
general (see the counterexample). -/
theorem c8_success_iff_all (task : CoordTask) (rs : List WorkerResult) :
    ((aggregate task rs).success = true ↔ ∀ r ∈ rs, r.success = true)
    ∧ (∀ rs', List.Perm rs rs' →
        (aggregate task rs).success = (aggregate task rs').success) := by
  constructor
  · show ((rs.filter (fun r => !r.success)).length == 0) = true ↔ _
    simp [List.length_eq_zero, List.filter_eq_nil_iff]
  · intro rs' hperm
    show ((rs.filter (fun r => !r.success)).length == 0)
      = ((rs'.filter (fun r => !r.success)).length == 0)
    rw [(hperm.filter (fun r => !r.success)).length_eq]

/-- Witness for the amended C8 at a concrete permutation pair. -/
theorem c8_success_iff_all_witness :
    (aggregate taskC8 [wrA, wrB]).success = (aggregate taskC8 [wrB, wrA]).success :=
  (c8_success_iff_all taskC8 [wrA, wrB]).2 [wrB, wrA] (List.Perm.swap wrB wrA [])

/-- C9: `Worker.execute` never raises when the underlying action throws:
the outcome has `success = false` and the error message as output, and
(store attached) the log gains exactly a `tool_called` event before the
execution and a `tool_result` event after it whose success flag matches
the outcome. -/
theorem c9_worker_never_raises (tool : Tool) (subtask : Subtask) (lg : Log) :
    (∀ m, tool.execute subtask.parameters = .err m →
      (workerExecute tool subtask lg).1.success = false
      ∧ (workerExecute tool subtask lg).1.output = m)
    ∧ (lg.attached = true → ∃ t1 t2 r d, (workerExecute tool subtask lg).2.events
        = lg.events ++ [.tool_called t1 subtask.id tool.name subtask.parameters,
            .tool_result t2 subtask.id tool.name r
              ((workerExecute tool subtask lg).1.success) d]) := by
  constructor
  · intro m hm
    simp [workerExecute, hm]
  · intro hatt
    have h1 : (lg.push (fun ts => AgentEvent.tool_called ts subtask.id tool.name subtask.parameters)).attached = true := by
      rw [Log.push_attached]; exact hatt
    cases hex : tool.execute subtask.parameters with
    | ok r =>
      simp only [workerExecute, hex]
      rw [Log.push_events_attached _ _ h1, Log.push_events_attached _ _ hatt,
        List.append_assoc]
      exact ⟨_, _, _, _, rfl⟩
    | taskComplete r =>
      simp only [workerExecute, hex]
      rw [Log.push_events_attached _ _ h1, Log.push_events_attached _ _ hatt,
        List.append_assoc]
      exact ⟨_, _, _, _, rfl⟩
    | err m =>
      simp only [workerExecute, hex]
      rw [Log.push_events_attached _ _ h1, Log.push_events_attached _ _ hatt,
        List.append_assoc]
      exact ⟨_, _, _, _, rfl⟩

/-- Witness for C9 at a throwing action with an attached store. -/
theorem c9_worker_never_raises_witness :
    (workerExecute boomTool subC9 lgC9).1.success = false
    ∧ (workerExecute boomTool subC9 lgC9).1.output = "kaput"
    ∧ (∃ t1 t2 r d, (workerExecute boomTool subC9 lgC9).2.events
        = lgC9.events ++ [.tool_called t1 subC9.id boomTool.name subC9.parameters,
            .tool_result t2 subC9.id boomTool.name r
              ((workerExecute boomTool subC9 lgC9).1.success) d]) :=
  ⟨((c9_worker_never_raises boomTool subC9 lgC9).1 "kaput" rfl).1,
    ((c9_worker_never_raises boomTool subC9 lgC9).1 "kaput" rfl).2,
    (c9_worker_never_raises boomTool subC9 lgC9).2 rfl⟩
